import Mathlib

/-!
Verification of goth-datastore: redis pipeline engine, response envelope,
database/cassandra connection lifecycle, retry policy, and the cassandra
schema-metadata extractor, shallowly embedded from the Go sources.
-/

namespace GothDatastore

/-! ### Redis error and value model

`RErr` models Go `error` values produced in redis.go: the distinguished
`RedisNotFound` sentinel (`fmt.Errorf("not_found")`, compared by identity via
`errors.Is`), plain I/O errors, and errors wrapped with `fmt.Errorf("...: %w", err)`.
-/

inductive RErr where
  | notFound
  | io (msg : String)
  | wrapped (msg : String) (inner : RErr)
  deriving DecidableEq, Repr

/-- Go `errors.Is(e, t)`: identity match on `e` or on any element of its
`%w`-unwrap chain. -/
def errIs (e t : RErr) : Bool :=
  match e with
  | .wrapped m inner => (RErr.wrapped m inner == t) || errIs inner t
  | .notFound => RErr.notFound == t
  | .io s => RErr.io s == t

/-- Raw redis reply values (`interface{}` shapes the envelope coerces):
byte strings and int64. Array replies exist in the source (`GetSlice`) but
none of the verified properties touch them, so they are not modelled. -/
inductive RVal where
  | bytes (s : String)
  | int (n : Int)
  deriving DecidableEq, Repr

/-- `RedisResponseEntity` from redis source: holds one raw reply value.
`data = none` models the Go zero value (nil interface). -/
structure RedisResponseEntity where
  data : Option RVal := none
  deriving DecidableEq, Repr

/-- `RedisResponse` from redis source: embeds the entity and an optional error. -/
structure RedisResponse where
  entity : RedisResponseEntity := {}
  Error : Option RErr := none
  deriving DecidableEq, Repr

/-- UTF-8 bytes of a string, as naturals (Go `[]byte` contents). -/
def strBytes (s : String) : List Nat :=
  s.toUTF8.toList.map (fun b => b.toNat)

/-- Go `fmt.Sprintf("%v", v)` on the reply shapes we model: a nil interface
prints `<nil>`, a `[]byte` prints its byte values bracketed, an `int64` prints
in decimal. -/
def goFmtV : Option RVal → String
  | none => "<nil>"
  | some (.bytes s) => "[" ++ String.intercalate " " ((strBytes s).map toString) ++ "]"
  | some (.int n) => toString n

/-- `RedisResponseEntity.GetString` from redis source: `[]byte` decoded,
`int64` via `fmt.Sprintf("%d", v)`, anything else (including the nil
interface) via the `default:` branch `fmt.Sprintf("%v", v)`. -/
def RedisResponseEntity.GetString (k : RedisResponseEntity) : String :=
  match k.data with
  | some (.bytes s) => s
  | some (.int n) => toString n
  | d => goFmtV d

/-- `GetString` promoted from the embedded entity, as Go method promotion does. -/
def RedisResponse.GetString (k : RedisResponse) : String :=
  k.entity.GetString

/-- `RedisResponse.RecordNotFound` from redis source:
`errors.Is(k.Error, RedisNotFound)` (false on a nil error). -/
def RedisResponse.RecordNotFound (k : RedisResponse) : Bool :=
  match k.Error with
  | some e => errIs e RErr.notFound
  | none => false

/-! ### Redis `_Do` (single-command execution) -/

/-- Outcome of `conn.Do(cmd, args...)`: an error, or a raw reply
(`ok none` = nil reply). -/
inductive DoResult where
  | err (e : RErr)
  | ok (r : Option RVal)
  deriving DecidableEq, Repr

/-- `RedisOp._Do` from redis source, given the connection's outcome:
nil reply becomes the `RedisNotFound` envelope, a value becomes a success
envelope, an error becomes an error envelope. -/
def RedisOpDo (res : DoResult) : RedisResponse :=
  match res with
  | .ok none => { Error := some .notFound }
  | .ok (some r) => { entity := { data := some r }, Error := none }
  | .err e => { Error := some e }

/-! ### Redis pipeline engine -/

/-- `RedisPipelineCmd` from redis source. -/
structure RedisPipelineCmd where
  Cmd : String
  Args : List RVal := []
  deriving DecidableEq, Repr

/-- Result of one `conn.Receive()` call: an error, or a raw reply
(`ok none` = nil reply). -/
inductive ReceiveResult where
  | err (e : RErr)
  | ok (r : Option RVal)
  deriving DecidableEq, Repr

/-- Behaviour of the pooled connection during one `Pipeline` call:
the outcome of the i-th `Send`, of the single `Flush`, and of the i-th
`Receive`. -/
structure PipeConn where
  send : Nat → Option RErr
  flush : Option RErr
  receive : Nat → ReceiveResult

/-- Observable I/O performed by one `Pipeline` call: number of `Send` calls
issued, whether `Flush` was called, number of `Receive` calls issued. -/
structure PipeStats where
  sends : Nat
  flushed : Bool
  receives : Nat
  deriving DecidableEq, Repr

/-- The send loop of `RedisOp.Pipeline`: scan the commands from index `i`,
returning the first `Send` failure (index and error), or `none` if every
`Send` succeeded. -/
def sendPhase (conn : PipeConn) : List RedisPipelineCmd → Nat → Option (Nat × RErr)
  | [], _ => none
  | _ :: rest, i =>
    match conn.send i with
    | some e => some (i, e)
    | none => sendPhase conn rest (i + 1)

/-- Envelope for a command marked failed by a `Send` failure:
`fmt.Errorf("pipeline send failed at cmd %d: %w", j, err)`. -/
def sendFailResp (j : Nat) (e : RErr) : RedisResponse :=
  { Error := some (.wrapped ("pipeline send failed at cmd " ++ toString j) e) }

/-- Envelope for a command marked failed by the `Flush` failure:
`fmt.Errorf("pipeline flush failed: %w", err)`. -/
def flushFailResp (e : RErr) : RedisResponse :=
  { Error := some (.wrapped "pipeline flush failed" e) }

/-- Envelope built from one `Receive` outcome: an error keeps the error,
a nil reply becomes the `RedisNotFound` envelope, a value becomes a success
envelope. -/
def receiveResp : ReceiveResult → RedisResponse
  | .err e => { Error := some e }
  | .ok none => { Error := some .notFound }
  | .ok (some r) => { entity := { data := some r }, Error := none }

/-- `RedisOp.Pipeline` from redis source. The response slice is modelled as
`List (Option RedisResponse)` (`none` = a `*RedisResponse` left nil), paired
with the observable I/O. Empty input returns nil with no I/O. On the first
`Send` failure at index `i`, entries `i..n-1` get send-failure envelopes and
the call returns without flushing or receiving (entries below `i` stay nil).
If all sends succeed but `Flush` fails, every entry gets a flush-failure
envelope. Otherwise one `Receive` per command, in order. -/
def Pipeline (conn : PipeConn) (cmds : List RedisPipelineCmd) :
    List (Option RedisResponse) × PipeStats :=
  let n := cmds.length
  if n = 0 then ([], ⟨0, false, 0⟩)
  else
    match sendPhase conn cmds 0 with
    | some (i, e) =>
      ((List.range n).map (fun j => if j < i then none else some (sendFailResp j e)),
        ⟨i + 1, false, 0⟩)
    | none =>
      match conn.flush with
      | some e =>
        ((List.range n).map (fun _ => some (flushFailResp e)), ⟨n, true, 0⟩)
      | none =>
        ((List.range n).map (fun i => some (receiveResp (conn.receive i))), ⟨n, true, n⟩)

/-! Concrete pipeline scenarios used as witnesses. -/

/-- A connection on which every `Send` and the `Flush` succeed; reply `i` is
a success for even `i`, a backend command error for `i = 1`, and a nil reply
for `i = 3`. -/
def demoOkConn : PipeConn :=
  { send := fun _ => none
    flush := none
    receive := fun i =>
      if i = 1 then .err (.io "ERR unknown command")
      else if i = 3 then .ok none
      else .ok (some (.bytes "OK")) }

/-- Three pipeline commands (the P3 shape `[SET, BADCMD, GET]` plus one). -/
def demoCmds : List RedisPipelineCmd :=
  [{ Cmd := "SET", Args := [.bytes "k1", .bytes "v1"] },
   { Cmd := "BADCMD", Args := [.bytes "x"] },
   { Cmd := "GET", Args := [.bytes "k1"] },
   { Cmd := "GET", Args := [.bytes "absent"] }]

/-- A connection whose `Send` fails at index 2 (earlier sends succeed). -/
def demoFailConn : PipeConn :=
  { send := fun i => if i = 2 then some (.io "broken pipe") else none
    flush := none
    receive := fun _ => .ok (some (.bytes "OK")) }

/-! ### Database connection lifecycle (database.go) -/

/-- A `*gorm.DB` resource: its creation ordinal (which `gorm.Open` attempt
produced it) and whether the underlying pool has been closed. -/
structure GormDB where
  id : Nat
  closed : Bool := false
  deriving DecidableEq, Repr

/-- `ConnParams` from database.go — the fields driving `DB()`'s control
flow. The dial-string fields (charset, timeouts, ...) do not affect the
modelled behaviour and are omitted. -/
structure ConnParams where
  KKDBParamMaxOpenConn : Int := 0
  KKDBParamMaxIdleConn : Int := 0
  KKDBParamConnMaxLifetime : Int := 0
  KKDBParamConnMaxIdleTime : Int := 0
  deriving DecidableEq, Repr

/-- `KKDatabaseOp` state: the cached `*gorm.DB` (nil when uninitialized)
and the pool parameters. -/
structure KKDatabaseOp where
  db : Option GormDB := none
  ConnParams : ConnParams := {}
  deriving DecidableEq, Repr

/-- Result of one `newDBConn` call: the resource (`none` = Failure), the
next fresh attempt ordinal, the number of `gorm.Open` attempts made, and
the sleeps (in ms) performed between consecutive attempts. -/
structure ConnOutcome where
  res : Option GormDB
  ctr : Nat
  attempts : Nat
  sleepsMs : List Nat
  deriving DecidableEq, Repr

/-- `newDBConn` from database.go: try `gorm.Open` (the `connect` oracle
says whether attempt ordinal `ctr` succeeds); on failure increment `retry`,
give up with Failure once `retry` reaches 5, otherwise sleep
`time.Second * 1` and recurse. -/
def newDBConn (connect : Nat → Bool) (retry : Nat) (ctr : Nat) : ConnOutcome :=
  if connect ctr then
    { res := some { id := ctr }, ctr := ctr + 1, attempts := 1, sleepsMs := [] }
  else
    if h : 5 ≤ retry + 1 then
      { res := none, ctr := ctr + 1, attempts := 1, sleepsMs := [] }
    else
      let o := newDBConn connect (retry + 1) (ctr + 1)
      { o with attempts := o.attempts + 1, sleepsMs := 1000 :: o.sleepsMs }
termination_by 5 - retry
decreasing_by omega

/-- Result of one `KKDatabaseOp.DB()` call: the returned handle (`none` =
nil), the updated operator, the next fresh attempt ordinal, and the I/O the
call performed through `newDBConn`. -/
structure DBCallOutcome where
  ret : Option GormDB
  op : KKDatabaseOp
  ctr : Nat
  attempts : Nat
  sleepsMs : List Nat
  deriving DecidableEq, Repr

/-- `KKDatabaseOp.DB` from database.go: if `KKDBParamConnMaxLifetime <= 0`
or `KKDBParamMaxIdleConn <= 0`, build and return an uncached connection
without touching `ke.db`; otherwise on a cache miss construct under
`opLock` (double-checked), leave the field nil on Failure, and hand out
`ke.db.New()` — a handle to the cached resource — on success. Modelled with
the sequential semantics of the guarded section. -/
def KKDatabaseOp.DB (ke : KKDatabaseOp) (connect : Nat → Bool) (ctr : Nat) : DBCallOutcome :=
  if ke.ConnParams.KKDBParamConnMaxLifetime ≤ 0 then
    let o := newDBConn connect 0 ctr
    { ret := o.res, op := ke, ctr := o.ctr, attempts := o.attempts, sleepsMs := o.sleepsMs }
  else if ke.ConnParams.KKDBParamMaxIdleConn ≤ 0 then
    let o := newDBConn connect 0 ctr
    { ret := o.res, op := ke, ctr := o.ctr, attempts := o.attempts, sleepsMs := o.sleepsMs }
  else
    match ke.db with
    | some d => { ret := some d, op := ke, ctr := ctr, attempts := 0, sleepsMs := [] }
    | none =>
      let o := newDBConn connect 0 ctr
      match o.res with
      | none =>
        { ret := none, op := { ke with db := none }, ctr := o.ctr,
          attempts := o.attempts, sleepsMs := o.sleepsMs }
      | some r =>
        { ret := some r, op := { ke with db := some r }, ctr := o.ctr,
          attempts := o.attempts, sleepsMs := o.sleepsMs }

/-- `KKDatabaseOp.Close` from database.go: `return ke.db.Close()` when a
resource is cached (the underlying pool close marks it closed and reports
no error — `database/sql` close is idempotent), else return nil. The cached
field itself is not reset. -/
def KKDatabaseOp.Close (ke : KKDatabaseOp) : KKDatabaseOp × Option RErr :=
  match ke.db with
  | some d => ({ ke with db := some { d with closed := true } }, none)
  | none => (ke, none)

/-! ### Cassandra operator (cassandra source) -/

/-- A `*gocql.Session`: its creation ordinal and whether it is closed. -/
structure GocqlSession where
  id : Nat
  closed : Bool := false
  deriving DecidableEq, Repr

/-- `gocql.RetryType` constants. -/
inductive RetryType where
  | retry
  | retryNextHost
  | ignore
  | rethrow
  deriving DecidableEq, Repr

/-- Association list keyed by strings, modelling a Go `map[string]V`
(lookup and key-replacing insert; insertion order stands in for Go's
unspecified map iteration order). -/
abbrev AList (α : Type) := List (String × α)

/-- Insert/replace a key in an association list. -/
def alistInsert {α : Type} (k : String) (v : α) : AList α → AList α
  | [] => [(k, v)]
  | (k', v') :: t => if k' = k then (k, v) :: t else (k', v') :: alistInsert k v t

/-- Look a key up in an association list. -/
def alistLookup {α : Type} (k : String) : AList α → Option α
  | [] => none
  | (k', v') :: t => if k' = k then some v' else alistLookup k t

/-- `CassandraColumnMetadataColumn` from cassandra source (`Type` renamed
to `Typ`: `Type` is reserved in Lean). -/
structure CassandraColumnMetadataColumn where
  Name : String
  Kind : String
  Typ : String
  deriving DecidableEq, Repr

/-- `IsPartitionKey` from cassandra source. -/
def CassandraColumnMetadataColumn.IsPartitionKey (c : CassandraColumnMetadataColumn) : Bool :=
  c.Kind == "partition_key"

/-- `IsClusteringKey` from cassandra source. -/
def CassandraColumnMetadataColumn.IsClusteringKey (c : CassandraColumnMetadataColumn) : Bool :=
  c.Kind == "clustering"

/-- `CassandraColumnMetadata` from cassandra source. Defaults model the Go
zero value. -/
structure CassandraColumnMetadata where
  keyspaceName : String := ""
  tableName : String := ""
  Columns : AList CassandraColumnMetadataColumn := []
  deriving DecidableEq, Repr

/-- `TableName` accessor from cassandra source. -/
def CassandraColumnMetadata.TableName (c : CassandraColumnMetadata) : String :=
  c.tableName

/-- `PartitionKeys` from cassandra source: names of columns whose kind is
`partition_key`. -/
def CassandraColumnMetadata.PartitionKeys (c : CassandraColumnMetadata) : List String :=
  (c.Columns.filter (fun p => p.2.IsPartitionKey)).map (fun p => p.2.Name)

/-- `ClusteringKeys` from cassandra source: names of columns whose kind is
`clustering`. -/
def CassandraColumnMetadata.ClusteringKeys (c : CassandraColumnMetadata) : List String :=
  (c.Columns.filter (fun p => p.2.IsClusteringKey)).map (fun p => p.2.Name)

/-- `CassandraOp` state: the lazily created session, the metadata map, the
`sync.Once` guard as a flag, and the retry ceiling. -/
structure CassandraOp where
  session : Option GocqlSession := none
  columnsMetadata : AList CassandraColumnMetadata := []
  columnMetaOnceUsed : Bool := false
  MaxRetryAttempt : Int := 0
  deriving DecidableEq, Repr

/-- `CassandraOp.Close` from cassandra source: when an open session is
cached, close it, drop it, and reset the metadata map and the `sync.Once`;
otherwise do nothing. -/
def CassandraOp.Close (c : CassandraOp) : CassandraOp :=
  match c.session with
  | some s =>
    if s.closed = false then
      { c with session := none, columnsMetadata := [], columnMetaOnceUsed := false }
    else c
  | none => c

/-- `CassandraOp.Attempt` from cassandra source: `eval` is
`query.Attempts() < c.MaxRetryAttempt`; when it holds the policy sleeps
`100 * time.Millisecond` (second component, in ms) before returning. -/
def CassandraOp.Attempt (c : CassandraOp) (queryAttempts : Int) : Bool × Nat :=
  let evalResult := decide (queryAttempts < c.MaxRetryAttempt)
  (evalResult, if evalResult then 100 else 0)

/-- `CassandraOp.GetRetryType` from cassandra source: always
`gocql.RetryNextHost`, for every error. -/
def CassandraOp.GetRetryType (c : CassandraOp) (err : RErr) : RetryType :=
  RetryType.retryNextHost

/-! ### `CassandraOp.Session` under concurrency

`Session()` reads `c.session` without the lock, and if that fast check
misses it takes `opLock` and calls `NewSession()` unconditionally — there
is no re-check of `c.session` under the lock. The interleaving of two
callers is modelled as a small-step machine: each thread runs the program
fast-check / acquire `opLock` / create a session / release and return. The
run models a fresh operator and an always-succeeding cluster, and no
session is closed during the run (`Closed()` is false). -/

inductive SessPC where
  | fastCheck
  | lockAcq
  | newSession
  | unlockRet (sid : Nat)
  | done (ret : Option Nat)
  deriving DecidableEq, Repr

/-- Shared state of the two-caller run: `c.session` (session ids), the
`opLock` owner, the number of `CreateSession` (driver connect) calls so
far, the next session id, and each thread's program counter. -/
structure SessWorld where
  session : Option Nat := none
  lockOwner : Option Bool := none
  connectCount : Nat := 0
  nextId : Nat := 0
  pcs : Bool → SessPC

/-- One step of thread `t` executing `CassandraOp.Session`. A thread
waiting on a held lock does not move. -/
def sessStep (w : SessWorld) (t : Bool) : SessWorld :=
  match w.pcs t with
  | .fastCheck =>
    match w.session with
    | some s => { w with pcs := fun u => if u = t then .done (some s) else w.pcs u }
    | none => { w with pcs := fun u => if u = t then .lockAcq else w.pcs u }
  | .lockAcq =>
    match w.lockOwner with
    | none =>
      { w with lockOwner := some t
               pcs := fun u => if u = t then .newSession else w.pcs u }
    | some _ => w
  | .newSession =>
    { w with connectCount := w.connectCount + 1
             session := some w.nextId
             nextId := w.nextId + 1
             pcs := fun u => if u = t then .unlockRet w.nextId else w.pcs u }
  | .unlockRet sid =>
    { w with lockOwner := none
             pcs := fun u => if u = t then .done (some sid) else w.pcs u }
  | .done _ => w

/-- A fresh operator with both callers at the start of `Session()`. -/
def sessInit : SessWorld :=
  { pcs := fun _ => .fastCheck }

/-- Run a schedule (list of thread ids) from a world. -/
def runSched (w : SessWorld) (sched : List Bool) : SessWorld :=
  sched.foldl sessStep w

/-- The interleaving in which both callers pass the fast check before
either takes the lock, then each completes its critical section in turn. -/
def c2Sched : List Bool :=
  [false, true, false, false, false, true, true, true]

/-! ### Cassandra schema-metadata extractor -/

/-- One row of the `system_schema.columns` catalog cursor, in cursor order:
`(keyspace_name, table_name, column_name, kind, type)`. -/
structure CatalogRow where
  keyspaceName : String
  tableName : String
  columnName : String
  kind : String
  typ : String
  deriving DecidableEq, Repr

/-- The column record a row scans into. -/
def rowColumn (r : CatalogRow) : CassandraColumnMetadataColumn :=
  { Name := r.columnName, Kind := r.kind, Typ := r.typ }

/-- The per-row accumulator update of `columnMetadataInitialize` in the
cassandra source: an accumulator whose `tableName` is `""` (the Go zero
value) is (re)started from the row; a row for the accumulator's table adds
its column; a row for a different table starts a fresh accumulator. -/
def columnMetadataStep (acc : CassandraColumnMetadata) (r : CatalogRow) :
    CassandraColumnMetadata :=
  if acc.tableName = "" then
    { keyspaceName := r.keyspaceName, tableName := r.tableName,
      Columns := [(r.columnName, rowColumn r)] }
  else if acc.tableName = r.tableName then
    { acc with Columns := alistInsert r.columnName (rowColumn r) acc.Columns }
  else
    { keyspaceName := r.keyspaceName, tableName := r.tableName,
      Columns := [(r.columnName, rowColumn r)] }

/-- The scan loop of `columnMetadataInitialize`: update the accumulator
with the row, then (as the source does on every iteration) store the
accumulator into `c.columnsMetadata` under its table name. -/
def columnMetadataRun (acc : CassandraColumnMetadata)
    (res : AList CassandraColumnMetadata) :
    List CatalogRow → AList CassandraColumnMetadata
  | [] => res
  | r :: rest =>
    let acc' := columnMetadataStep acc r
    columnMetadataRun acc' (alistInsert acc'.tableName acc' res) rest

/-- `columnMetadataInitialize` from the cassandra source, over the ordered
rows of the catalog cursor, starting from the zero accumulator and the
empty map the operator is configured with. -/
def columnMetadataInit (rows : List CatalogRow) : AList CassandraColumnMetadata :=
  columnMetadataRun {} [] rows

/-- Reference group-by, following the claim's words: each distinct table
maps to one entry holding that table's keyspace (from its first row) and
every one of its columns with kind and type. -/
def refTableMeta (rows : List CatalogRow) (t : String) : Option CassandraColumnMetadata :=
  match rows.filter (fun r => r.tableName == t) with
  | [] => none
  | r0 :: rest =>
    some { keyspaceName := r0.keyspaceName, tableName := t,
           Columns := (r0 :: rest).foldl
             (fun m r => alistInsert r.columnName (rowColumn r) m) [] }

/-- Row order of the catalog query: sorted by `(table_name, column_name)`,
lexicographically over the strings' character lists. -/
def rowLE (a b : CatalogRow) : Prop :=
  a.tableName.toList < b.tableName.toList ∨
    (a.tableName = b.tableName ∧ a.columnName.toList ≤ b.columnName.toList)

instance : DecidableRel rowLE := fun a b => by
  unfold rowLE
  infer_instance

/-- Extend a table accumulator with one row's column (the `else if` branch
of the scan). -/
def extendMeta (m : CassandraColumnMetadata) (r : CatalogRow) : CassandraColumnMetadata :=
  { m with Columns := alistInsert r.columnName (rowColumn r) m.Columns }

/-- Fold a run of same-table rows into an accumulator. -/
def groupFold (m : CassandraColumnMetadata) (rs : List CatalogRow) : CassandraColumnMetadata :=
  rs.foldl extendMeta m

/-- The accumulator freshly started from row `r`. -/
def freshMeta (r : CatalogRow) : CassandraColumnMetadata :=
  { keyspaceName := r.keyspaceName, tableName := r.tableName,
    Columns := [(r.columnName, rowColumn r)] }

/-- The P5 catalog rows: table `users` (`id` partition key, `name` regular)
followed by table `orders` (`id` partition key, `user_id` clustering). -/
def p5Rows : List CatalogRow :=
  [{ keyspaceName := "ks", tableName := "users", columnName := "id",
     kind := "partition_key", typ := "uuid" },
   { keyspaceName := "ks", tableName := "users", columnName := "name",
     kind := "regular", typ := "text" },
   { keyspaceName := "ks", tableName := "orders", columnName := "id",
     kind := "partition_key", typ := "uuid" },
   { keyspaceName := "ks", tableName := "orders", columnName := "user_id",
     kind := "clustering", typ := "uuid" }]

/-- The same catalog in `(table, column)`-sorted order. -/
def c3SortedRows : List CatalogRow :=
  [{ keyspaceName := "ks", tableName := "orders", columnName := "id",
     kind := "partition_key", typ := "uuid" },
   { keyspaceName := "ks", tableName := "orders", columnName := "user_id",
     kind := "clustering", typ := "uuid" },
   { keyspaceName := "ks", tableName := "users", columnName := "id",
     kind := "partition_key", typ := "uuid" },
   { keyspaceName := "ks", tableName := "users", columnName := "name",
     kind := "regular", typ := "text" }]

/-- A sorted catalog whose table name is the empty string: the scan's
"accumulator is empty" test (`tableName == ""`) conflates it with the empty
accumulator. -/
def c3CexRows : List CatalogRow :=
  [{ keyspaceName := "ks", tableName := "", columnName := "a",
     kind := "regular", typ := "text" },
   { keyspaceName := "ks", tableName := "", columnName := "b",
     kind := "regular", typ := "text" }]

/-- A database operator with pooling enabled (positive idle and lifetime
bounds) and no cached resource. -/
def dbOpPooled : KKDatabaseOp :=
  { ConnParams := { KKDBParamMaxOpenConn := 10, KKDBParamMaxIdleConn := 20,
                    KKDBParamConnMaxLifetime := 3600000 } }

/-- A database operator with `max-idle-connections = 0` (pooling disabled). -/
def dbOpNoPool : KKDatabaseOp :=
  { ConnParams := { KKDBParamMaxOpenConn := 10, KKDBParamMaxIdleConn := 0,
                    KKDBParamConnMaxLifetime := 3600000 } }

/-- A cassandra operator holding an open cached session. -/
def cassOpLive : CassandraOp :=
  { session := some { id := 7 }, columnsMetadata := [("users", {})],
    columnMetaOnceUsed := true, MaxRetryAttempt := 3 }

end GothDatastore

namespace GothDatastore

/-! ### Theorems -/

theorem sendPhase_none (conn : PipeConn) :
    ∀ (cmds : List RedisPipelineCmd) (s : Nat),
      (∀ k, k < cmds.length → conn.send (s + k) = none) →
      sendPhase conn cmds s = none := by
  intro cmds
  induction cmds with
  | nil => intro s _; rfl
  | cons c rest ih =>
    intro s h
    have h0 : conn.send s = none := by
      have := h 0 (Nat.succ_pos _)
      simpa using this
    simp only [sendPhase, h0]
    exact ih (s + 1) (fun k hk => by
      have := h (k + 1) (by simp only [List.length_cons]; omega)
      simpa [Nat.add_assoc, Nat.add_comm 1 k] using this)

theorem sendPhase_firstFail (conn : PipeConn) (i : Nat) (e : RErr)
    (hi : conn.send i = some e) :
    ∀ (cmds : List RedisPipelineCmd) (s : Nat),
      (∀ j, s ≤ j → j < i → conn.send j = none) →
      s ≤ i → i < s + cmds.length →
      sendPhase conn cmds s = some (i, e) := by
  intro cmds
  induction cmds with
  | nil => intro s _ hsi hlen; simp only [List.length_nil] at hlen; omega
  | cons c rest ih =>
    intro s hbefore hsi hlen
    by_cases hcase : s = i
    · subst hcase
      simp [sendPhase, hi]
    · have hlt : s < i := lt_of_le_of_ne hsi hcase
      have hs : conn.send s = none := hbefore s le_rfl hlt
      simp only [sendPhase, hs]
      exact ih (s + 1) (fun j hj hj2 => hbefore j (by omega) hj2) (by omega)
        (by simpa [Nat.add_assoc, Nat.add_comm 1 rest.length] using hlen)

/-- C1: on a non-empty command list where every `Send` and the `Flush`
succeed, `Pipeline` returns exactly N envelopes, the i-th envelope being
exactly the envelope of the i-th reply: a backend-side error on reply i
yields an error envelope at index i only (no shifting, dropping, or failing
of later envelopes), and a nil reply at index i yields the `RedisNotFound`
envelope at index i. -/
theorem c1_pipeline_order_and_isolation (conn : PipeConn) (cmds : List RedisPipelineCmd)
    (hne : cmds ≠ [])
    (hsend : ∀ i, i < cmds.length → conn.send i = none)
    (hflush : conn.flush = none) :
    (Pipeline conn cmds).1.length = cmds.length ∧
    ∀ i, i < cmds.length →
      (Pipeline conn cmds).1[i]? = some (some (receiveResp (conn.receive i))) := by
  have hn : ¬ cmds.length = 0 := by
    simpa using (List.length_pos.mpr hne).ne'
  have hsp : sendPhase conn cmds 0 = none :=
    sendPhase_none conn cmds 0 (fun k hk => by simpa using hsend k hk)
  unfold Pipeline
  simp only [hsp, hflush, if_neg hn]
  refine ⟨by simp, ?_⟩
  intro i hi
  simp [List.getElem?_map, List.getElem?_range, hi]

/-- C1 witness: concrete 4-command pipeline where reply 1 is a backend
error and reply 3 is a nil reply; all 4 envelopes are present and
positionally correct. -/
theorem c1_pipeline_witness :
    (Pipeline demoOkConn demoCmds).1.length = 4 ∧
    (Pipeline demoOkConn demoCmds).1[1]? =
      some (some { Error := some (.io "ERR unknown command") }) ∧
    (Pipeline demoOkConn demoCmds).1[2]? =
      some (some { entity := { data := some (.bytes "OK") }, Error := none }) ∧
    (Pipeline demoOkConn demoCmds).1[3]? = some (some { Error := some .notFound }) := by
  have h := c1_pipeline_order_and_isolation demoOkConn demoCmds (by decide)
    (fun i _ => rfl) rfl
  exact ⟨h.1, h.2 1 (by decide), h.2 2 (by decide), h.2 3 (by decide)⟩

/-- C5: if `Send` fails first at index i, `Pipeline` marks commands i..N-1
with send-failure envelopes, issues exactly i+1 `Send` calls (none after the
failure), never calls `Flush`, never calls `Receive`, and still returns a
list of length N. -/
theorem c5_send_failure_isolation (conn : PipeConn) (cmds : List RedisPipelineCmd)
    (i : Nat) (e : RErr)
    (hi : conn.send i = some e)
    (hbefore : ∀ j, j < i → conn.send j = none)
    (hlen : i < cmds.length) :
    (Pipeline conn cmds).1.length = cmds.length ∧
    (∀ j, i ≤ j → j < cmds.length →
      (Pipeline conn cmds).1[j]? = some (some (sendFailResp j e))) ∧
    (Pipeline conn cmds).2 = ⟨i + 1, false, 0⟩ := by
  have hn : ¬ cmds.length = 0 := by omega
  have hsp : sendPhase conn cmds 0 = some (i, e) :=
    sendPhase_firstFail conn i e hi cmds 0 (fun j _ hj => hbefore j hj)
      (Nat.zero_le _) (by simpa using hlen)
  unfold Pipeline
  simp only [hsp, if_neg hn]
  refine ⟨by simp, ?_, by trivial⟩
  intro j hij hj
  simp [List.getElem?_map, List.getElem?_range, hj, Nat.not_lt.mpr hij]

/-- C5 witness: `Send` fails at index 2 of a 4-command list; entries 2 and 3
carry send-failure envelopes, 3 sends were issued, no flush, no receives. -/
theorem c5_send_failure_witness :
    (Pipeline demoFailConn demoCmds).1.length = 4 ∧
    (Pipeline demoFailConn demoCmds).1[2]? =
      some (some (sendFailResp 2 (.io "broken pipe"))) ∧
    (Pipeline demoFailConn demoCmds).1[3]? =
      some (some (sendFailResp 3 (.io "broken pipe"))) ∧
    (Pipeline demoFailConn demoCmds).2 = ⟨3, false, 0⟩ := by
  have h := c5_send_failure_isolation demoFailConn demoCmds 2 (.io "broken pipe") rfl
    (fun j hj => by
      have hj01 : j = 0 ∨ j = 1 := by omega
      rcases hj01 with h1 | h1 <;> subst h1 <;> rfl)
    (by decide)
  exact ⟨h.1, h.2.1 2 (by omega) (by decide), h.2.1 3 (by omega) (by decide), h.2.2⟩

/-- C10: when `Send` fails first at index i with 0 < i, the returned list
still has length N but every entry below i is left nil (`none`): the
successfully submitted commands before the failure carry neither a success
value nor an error envelope. -/
theorem c10_send_failure_prefix_nil (conn : PipeConn) (cmds : List RedisPipelineCmd)
    (i : Nat) (e : RErr)
    (hi : conn.send i = some e)
    (hbefore : ∀ j, j < i → conn.send j = none)
    (hlen : i < cmds.length) :
    (Pipeline conn cmds).1.length = cmds.length ∧
    ∀ j, j < i → (Pipeline conn cmds).1[j]? = some none := by
  have hn : ¬ cmds.length = 0 := by omega
  have hsp : sendPhase conn cmds 0 = some (i, e) :=
    sendPhase_firstFail conn i e hi cmds 0 (fun j _ hj => hbefore j hj)
      (Nat.zero_le _) (by simpa using hlen)
  unfold Pipeline
  simp only [hsp, if_neg hn]
  refine ⟨by simp, ?_⟩
  intro j hj
  have hjn : j < cmds.length := by omega
  simp [List.getElem?_map, List.getElem?_range, hjn, hj]

/-- C10 witness: `Send` fails at index 2; entries 0 and 1 of the returned
list are nil. -/
theorem c10_send_failure_prefix_witness :
    (Pipeline demoFailConn demoCmds).1.length = 4 ∧
    (Pipeline demoFailConn demoCmds).1[0]? = some none ∧
    (Pipeline demoFailConn demoCmds).1[1]? = some none := by
  have h := c10_send_failure_prefix_nil demoFailConn demoCmds 2 (.io "broken pipe") rfl
    (fun j hj => by
      have hj01 : j = 0 ∨ j = 1 := by omega
      rcases hj01 with h1 | h1 <;> subst h1 <;> rfl)
    (by decide)
  exact ⟨h.1, h.2 0 (by omega), h.2 1 (by omega)⟩

/-- C6 counterexample: a `GET` on an absent key (nil raw reply) yields an
envelope with `RecordNotFound() = true`, but `GetString()` on it returns
`"<nil>"` (the `fmt.Sprintf("%v", nil)` rendering of the nil data field),
not `""` as the claim states. -/
theorem c6_getstring_counterexample :
    (RedisOpDo (.ok none)).RecordNotFound = true ∧
    (RedisOpDo (.ok none)).GetString = "<nil>" ∧
    ¬ (RedisOpDo (.ok none)).GetString = "" := by
  decide

/-- C6 amended: a `GET` on an absent key yields `RecordNotFound() = true`
(the sentinel is distinct by identity from any transport failure and from
any success) and `GetString()` on that envelope returns `"<nil>"`. -/
theorem c6_notfound_distinction :
    (RedisOpDo (.ok none)).RecordNotFound = true ∧
    (RedisOpDo (.ok none)).GetString = "<nil>" ∧
    (∀ s, (RedisOpDo (.err (.io s))).RecordNotFound = false) ∧
    (∀ r, (RedisOpDo (.ok (some r))).RecordNotFound = false) := by
  refine ⟨rfl, rfl, fun s => rfl, fun r => rfl⟩

theorem newDBConn_allFail (connect : Nat → Bool) (hc : ∀ k, connect k = false)
    (c : Nat) :
    newDBConn connect 0 c =
      { res := none, ctr := c + 5, attempts := 5, sleepsMs := [1000, 1000, 1000, 1000] } := by
  simp [newDBConn, hc]

theorem newDBConn_firstOk (connect : Nat → Bool) (hc : ∀ k, connect k = true)
    (c : Nat) :
    newDBConn connect 0 c =
      { res := some { id := c }, ctr := c + 1, attempts := 1, sleepsMs := [] } := by
  simp [newDBConn, hc]

/-- C4: when the driver's connect fails on every attempt, `DB()` on an
operator with pooling enabled and no cached resource makes exactly 5
`gorm.Open` attempts with a 1000 ms sleep between consecutive attempts
(4 sleeps between 5 attempts), returns Failure (nil), leaves the cached
field unset, and a subsequent `DB()` call runs a fresh budget of 5
attempts and fails the same way. -/
theorem c4_bounded_retry (connect : Nat → Bool) (hc : ∀ k, connect k = false)
    (ke : KKDatabaseOp) (ctr : Nat)
    (hl : 0 < ke.ConnParams.KKDBParamConnMaxLifetime)
    (hi : 0 < ke.ConnParams.KKDBParamMaxIdleConn)
    (hdb : ke.db = none) :
    (ke.DB connect ctr).ret = none ∧
    (ke.DB connect ctr).op.db = none ∧
    (ke.DB connect ctr).attempts = 5 ∧
    (ke.DB connect ctr).sleepsMs = [1000, 1000, 1000, 1000] ∧
    ((ke.DB connect ctr).op.DB connect (ke.DB connect ctr).ctr).attempts = 5 ∧
    ((ke.DB connect ctr).op.DB connect (ke.DB connect ctr).ctr).ret = none := by
  have hl' : ¬ ke.ConnParams.KKDBParamConnMaxLifetime ≤ 0 := not_le.mpr hl
  have hi' : ¬ ke.ConnParams.KKDBParamMaxIdleConn ≤ 0 := not_le.mpr hi
  have h1 : ∀ c, ke.DB connect c =
      { ret := none, op := { ke with db := none }, ctr := c + 5,
        attempts := 5, sleepsMs := [1000, 1000, 1000, 1000] } := fun c => by
    simp [KKDatabaseOp.DB, hl', hi', hdb, newDBConn_allFail connect hc]
  have hke : ({ ke with db := none } : KKDatabaseOp) = ke := by
    cases ke; simp_all
  refine ⟨by simp [h1], by simp [h1, hdb, hke], by simp [h1], by simp [h1], ?_, ?_⟩ <;>
    simp [h1, hke]

/-- C4 witness: concrete pooled operator, always-failing connect. -/
theorem c4_bounded_retry_witness :
    (dbOpPooled.DB (fun _ => false) 0).ret = none ∧
    (dbOpPooled.DB (fun _ => false) 0).attempts = 5 ∧
    (dbOpPooled.DB (fun _ => false) 0).sleepsMs = [1000, 1000, 1000, 1000] := by
  have h := c4_bounded_retry (fun _ => false) (fun _ => rfl) dbOpPooled 0
    (by decide) (by decide) rfl
  exact ⟨h.1, h.2.2.1, h.2.2.2.1⟩

theorem dbBypass (connect : Nat → Bool) (hc : ∀ k, connect k = true)
    (ke : KKDatabaseOp) (ctr : Nat)
    (hbypass : ke.ConnParams.KKDBParamConnMaxLifetime ≤ 0 ∨
      ke.ConnParams.KKDBParamMaxIdleConn ≤ 0) :
    ke.DB connect ctr =
      { ret := some { id := ctr }, op := ke, ctr := ctr + 1,
        attempts := 1, sleepsMs := [] } := by
  rcases hbypass with h | h
  · simp [KKDatabaseOp.DB, h, newDBConn_firstOk connect hc]
  · by_cases h2 : ke.ConnParams.KKDBParamConnMaxLifetime ≤ 0 <;>
      simp [KKDatabaseOp.DB, h, h2, newDBConn_firstOk connect hc]

/-- C9: when the configured max-lifetime or max-idle-connections bound is
non-positive, `DB()` bypasses the cache: on an operator with no cached
resource and a succeeding connect, two successive `DB()` calls return two
distinct fresh resources, the operator is returned unchanged, and the
cached field remains unset. -/
theorem c9_pooling_disabled_fresh (connect : Nat → Bool) (hc : ∀ k, connect k = true)
    (ke : KKDatabaseOp) (ctr : Nat)
    (hbypass : ke.ConnParams.KKDBParamConnMaxLifetime ≤ 0 ∨
      ke.ConnParams.KKDBParamMaxIdleConn ≤ 0)
    (hdb : ke.db = none) :
    (ke.DB connect ctr).ret = some { id := ctr } ∧
    (ke.DB connect ctr).op = ke ∧
    ((ke.DB connect ctr).op.DB connect (ke.DB connect ctr).ctr).ret =
      some { id := ctr + 1 } ∧
    (ke.DB connect ctr).ret ≠
      ((ke.DB connect ctr).op.DB connect (ke.DB connect ctr).ctr).ret ∧
    ((ke.DB connect ctr).op.DB connect (ke.DB connect ctr).ctr).op.db = none := by
  have hA := dbBypass connect hc ke ctr hbypass
  have hB := dbBypass connect hc ke (ctr + 1) hbypass
  have hne : ¬ (ctr = ctr + 1) := by omega
  refine ⟨by simp [hA], by simp [hA], by simp [hA, hB], ?_, by simp [hA, hB, hdb]⟩
  simp [hA, hB, GormDB.mk.injEq, hne]

/-- C9 witness: `max-idle-connections = 0` on a fresh operator; two calls
return resources 0 and 1. -/
theorem c9_pooling_disabled_witness :
    (dbOpNoPool.DB (fun _ => true) 0).ret = some { id := 0 } ∧
    ((dbOpNoPool.DB (fun _ => true) 0).op.DB (fun _ => true)
      (dbOpNoPool.DB (fun _ => true) 0).ctr).ret = some { id := 1 } ∧
    (dbOpNoPool.DB (fun _ => true) 0).ret ≠
      ((dbOpNoPool.DB (fun _ => true) 0).op.DB (fun _ => true)
        (dbOpNoPool.DB (fun _ => true) 0).ctr).ret := by
  have h := c9_pooling_disabled_fresh (fun _ => true) (fun _ => rfl) dbOpNoPool 0
    (Or.inr (by decide)) rfl
  exact ⟨h.1, h.2.2.1, h.2.2.2.1⟩

/-- C7 counterexample: closing a database operator that caches a live
resource does not reset the operator to the uninitialized state — the
cached field still holds the (now closed) resource. -/
theorem c7_close_no_reset_counterexample :
    (KKDatabaseOp.Close { db := some { id := 0 } }).1.db =
      some { id := 0, closed := true } ∧
    ¬ (KKDatabaseOp.Close { db := some { id := 0 } }).1.db = none := by
  decide

/-- C7 amended: `Close` is idempotent and returns no error on both
operators; the cassandra operator closing an open cached session resets to
the uninitialized state (session, metadata map, and once-guard cleared),
while the database operator closes the cached resource but leaves the
cached field set, pointing at the closed resource. -/
theorem c7_release_behaviour :
    (∀ c : CassandraOp, (c.Close).Close = c.Close) ∧
    (∀ c : CassandraOp, ∀ s, c.session = some s → s.closed = false →
      (c.Close).session = none ∧ (c.Close).columnsMetadata = [] ∧
      (c.Close).columnMetaOnceUsed = false) ∧
    (∀ ke : KKDatabaseOp, (ke.Close).2 = none) ∧
    (∀ ke : KKDatabaseOp, ((ke.Close).1.Close).1 = (ke.Close).1) ∧
    (∀ ke : KKDatabaseOp, ∀ d, ke.db = some d →
      (ke.Close).1.db = some { d with closed := true }) := by
  refine ⟨?_, ?_, ?_, ?_, ?_⟩
  · intro c
    match h : c.session with
    | none =>
      have h1 : c.Close = c := by simp [CassandraOp.Close, h]
      rw [h1]; exact h1
    | some s =>
      by_cases hcl : s.closed = false
      · simp [CassandraOp.Close, h, hcl]
      · have h1 : c.Close = c := by simp [CassandraOp.Close, h, hcl]
        rw [h1]; exact h1
  · intro c s hs hcl
    simp [CassandraOp.Close, hs, hcl]
  · intro ke
    match h : ke.db with
    | none => simp [KKDatabaseOp.Close, h]
    | some d => simp [KKDatabaseOp.Close, h]
  · intro ke
    match h : ke.db with
    | none => simp [KKDatabaseOp.Close, h]
    | some d => simp [KKDatabaseOp.Close, h]
  · intro ke d hd
    simp [KKDatabaseOp.Close, hd]

/-- C7 witness: concrete live cassandra operator and concrete database
operator with a cached resource. -/
theorem c7_release_witness :
    cassOpLive.session = some { id := 7 } ∧ GocqlSession.closed { id := 7 } = false ∧
    (cassOpLive.Close).session = none ∧
    ((KKDatabaseOp.Close { db := some { id := 3 } }).1.Close).1 =
      (KKDatabaseOp.Close { db := some { id := 3 } }).1 ∧
    (KKDatabaseOp.Close { db := some { id := 3 } }).1.db =
      some { id := 3, closed := true } := by
  refine ⟨rfl, rfl, ?_, ?_, ?_⟩
  · exact (c7_release_behaviour.2.1 cassOpLive { id := 7 } rfl rfl).1
  · exact c7_release_behaviour.2.2.2.1 { db := some { id := 3 } }
  · exact c7_release_behaviour.2.2.2.2 { db := some { id := 3 } } { id := 3 } rfl

/-- C2 (code-bug evidence): `CassandraOp.Session` takes `opLock` but never
re-checks `c.session` under it, so in the interleaving where both callers
pass the fast nil-check before either locks, the driver's connect
(`CreateSession`) runs twice and the two callers return different sessions
— contradicting the source's own "double-checked locking" comment and the
claimed single construction. -/
theorem c2_session_connects_twice :
    (runSched sessInit c2Sched).connectCount = 2 ∧
    (runSched sessInit c2Sched).pcs false = .done (some 0) ∧
    (runSched sessInit c2Sched).pcs true = .done (some 1) ∧
    ¬ (runSched sessInit c2Sched).pcs false = (runSched sessInit c2Sched).pcs true ∧
    (runSched sessInit c2Sched).lockOwner = none := by
  decide

/-- C8: the retry policy's `Attempt` returns true iff the query's attempt
count is strictly below the operator's `MaxRetryAttempt`, sleeps exactly
100 ms when (and only when) it returns true, and `GetRetryType` selects
`RetryNextHost` for every error. -/
theorem c8_retry_policy (c : CassandraOp) (n : Int) :
    ((c.Attempt n).1 = true ↔ n < c.MaxRetryAttempt) ∧
    ((c.Attempt n).2 = if (c.Attempt n).1 = true then 100 else 0) ∧
    (∀ e, c.GetRetryType e = RetryType.retryNextHost) := by
  refine ⟨?_, ?_, fun e => rfl⟩
  · simp [CassandraOp.Attempt]
  · rfl

theorem alistLookup_insert {α : Type} (k : String) (v : α) (t : String)
    (l : AList α) :
    alistLookup t (alistInsert k v l) = if k = t then some v else alistLookup t l := by
  induction l with
  | nil => simp [alistInsert, alistLookup]
  | cons p rest ih =>
    obtain ⟨k', v'⟩ := p
    by_cases hk : k' = k
    · subst hk
      by_cases ht : k' = t <;> simp [alistInsert, alistLookup, ht]
    · by_cases ht : k' = t
      · subst ht
        have hkt : ¬ k = k' := fun h => hk h.symm
        simp [alistInsert, alistLookup, hk, hkt]
      · simp [alistInsert, alistLookup, hk, ht, ih]

theorem strToList_inj {a b : String} (h : a.toList = b.toList) : a = b := by
  cases a
  cases b
  exact congrArg String.mk (by simpa [String.toList] using h)

theorem rowLE_table {a b : CatalogRow} (h : rowLE a b) :
    a.tableName.toList ≤ b.tableName.toList := by
  rcases h with h | ⟨h, _⟩
  · exact le_of_lt h
  · exact le_of_eq (congrArg String.toList h)

theorem groupFold_nil (m : CassandraColumnMetadata) : groupFold m [] = m := rfl

theorem groupFold_cons (m : CassandraColumnMetadata) (r : CatalogRow)
    (l : List CatalogRow) : groupFold m (r :: l) = groupFold (extendMeta m r) l := rfl

theorem groupFold_eq :
    ∀ (rs : List CatalogRow) (m : CassandraColumnMetadata),
      groupFold m rs =
        { keyspaceName := m.keyspaceName, tableName := m.tableName,
          Columns := rs.foldl
            (fun cols r => alistInsert r.columnName (rowColumn r) cols) m.Columns } := by
  intro rs
  induction rs with
  | nil => intro m; rfl
  | cons r rest ih =>
    intro m
    rw [groupFold_cons, ih (extendMeta m r)]
    rfl

theorem refTableMeta_cons_ne {r : CatalogRow} {rs : List CatalogRow} {t : String}
    (h : ¬ r.tableName = t) :
    refTableMeta (r :: rs) t = refTableMeta rs t := by
  have hb : (r.tableName == t) = false := beq_eq_false_iff_ne.mpr h
  unfold refTableMeta
  simp [List.filter_cons, hb]

theorem refTableMeta_eq_groupFold {rows : List CatalogRow} {t : String}
    {r0 : CatalogRow} {rest : List CatalogRow}
    (hf : rows.filter (fun r => r.tableName == t) = r0 :: rest)
    (ht : r0.tableName = t) :
    refTableMeta rows t = some (groupFold (freshMeta r0) rest) := by
  subst ht
  unfold refTableMeta
  rw [hf, groupFold_eq]
  rfl

theorem columnMetadataRun_spec :
    ∀ (rows : List CatalogRow) (acc : CassandraColumnMetadata)
      (res : AList CassandraColumnMetadata),
      List.Pairwise rowLE rows →
      (∀ r ∈ rows, r.tableName ≠ "") →
      acc.tableName ≠ "" →
      (∀ r ∈ rows, acc.tableName.toList ≤ r.tableName.toList) →
      alistLookup acc.tableName res = some acc →
      ∀ t, alistLookup t (columnMetadataRun acc res rows) =
        if rows.filter (fun r => r.tableName == t) = [] then alistLookup t res
        else if t = acc.tableName then
          some (groupFold acc (rows.filter (fun r => r.tableName == t)))
        else refTableMeta rows t := by
  intro rows
  induction rows with
  | nil =>
    intro acc res _ _ _ _ _ t
    simp [columnMetadataRun]
  | cons r rs ih =>
    intro acc res hsorted hnames hacc hle hres t
    obtain ⟨hhead, htail⟩ := List.pairwise_cons.mp hsorted
    have hrne : r.tableName ≠ "" := hnames r (List.mem_cons_self r rs)
    have hler : acc.tableName.toList ≤ r.tableName.toList :=
      hle r (List.mem_cons_self r rs)
    have hnames' : ∀ x ∈ rs, x.tableName ≠ "" :=
      fun x hx => hnames x (List.mem_cons_of_mem r hx)
    have hrun : columnMetadataRun acc res (r :: rs) =
        columnMetadataRun (columnMetadataStep acc r)
          (alistInsert (columnMetadataStep acc r).tableName
            (columnMetadataStep acc r) res) rs := rfl
    by_cases heq : acc.tableName = r.tableName
    · -- the row continues the current table: the `else if` branch of the scan
      have hstep : columnMetadataStep acc r = extendMeta acc r := by
        unfold columnMetadataStep
        rw [if_neg hacc, if_pos heq]
        rfl
      have hext_tn : (extendMeta acc r).tableName = acc.tableName := rfl
      have ihres : alistLookup (extendMeta acc r).tableName
          (alistInsert (extendMeta acc r).tableName (extendMeta acc r) res) =
            some (extendMeta acc r) := by
        rw [alistLookup_insert]
        simp
      have hIH := ih (extendMeta acc r)
        (alistInsert (extendMeta acc r).tableName (extendMeta acc r) res)
        htail hnames' (by rw [hext_tn]; exact hacc)
        (fun x hx => by rw [hext_tn, heq]; exact rowLE_table (hhead x hx))
        ihres t
      rw [hrun, hstep, hIH]
      by_cases ht : t = acc.tableName
      · have hrt : (r.tableName == t) = true := by
          have : r.tableName = t := by rw [ht]; exact heq.symm
          exact beq_iff_eq.mpr this
        have hfcons : (r :: rs).filter (fun x => x.tableName == t) =
            r :: rs.filter (fun x => x.tableName == t) := by
          simp [List.filter_cons, hrt]
        by_cases hrs : rs.filter (fun x => x.tableName == t) = []
        · rw [if_pos hrs, hfcons, hrs, if_neg (by simp), if_pos ht,
            alistLookup_insert, hext_tn]
          rw [if_pos ht.symm, groupFold_cons, groupFold_nil]
        · rw [if_neg hrs, if_pos (by rw [hext_tn]; exact ht), hfcons,
            if_neg (by simp), if_pos ht, groupFold_cons]
      · have hrt' : ¬ r.tableName = t := by
          rw [← heq]
          exact fun hh => ht hh.symm
        have hrt : (r.tableName == t) = false := beq_eq_false_iff_ne.mpr hrt'
        have hfcons : (r :: rs).filter (fun x => x.tableName == t) =
            rs.filter (fun x => x.tableName == t) := by
          simp [List.filter_cons, hrt]
        rw [hfcons]
        by_cases hrs : rs.filter (fun x => x.tableName == t) = []
        · rw [if_pos hrs, if_pos hrs, alistLookup_insert, hext_tn,
            if_neg (fun hh => ht hh.symm)]
        · rw [if_neg hrs, if_neg hrs, if_neg (by rw [hext_tn]; exact ht),
            if_neg ht, refTableMeta_cons_ne hrt']
    · -- the row starts a new table: the final `else` branch of the scan
      have hlt : acc.tableName.toList < r.tableName.toList :=
        lt_of_le_of_ne hler (fun hh => heq (strToList_inj hh))
      have hstep : columnMetadataStep acc r = freshMeta r := by
        unfold columnMetadataStep
        rw [if_neg hacc, if_neg heq]
        rfl
      have hfresh_tn : (freshMeta r).tableName = r.tableName := rfl
      have ihres : alistLookup (freshMeta r).tableName
          (alistInsert (freshMeta r).tableName (freshMeta r) res) =
            some (freshMeta r) := by
        rw [alistLookup_insert]
        simp
      have hIH := ih (freshMeta r)
        (alistInsert (freshMeta r).tableName (freshMeta r) res)
        htail hnames' (by rw [hfresh_tn]; exact hrne)
        (fun x hx => by rw [hfresh_tn]; exact rowLE_table (hhead x hx))
        ihres t
      rw [hrun, hstep, hIH]
      by_cases ht : t = r.tableName
      · have htacc : ¬ t = acc.tableName := fun hh =>
          (ne_of_lt hlt) (congrArg String.toList (by rw [← hh]; exact ht))
        have hrt : (r.tableName == t) = true := beq_iff_eq.mpr ht.symm
        have hfcons : (r :: rs).filter (fun x => x.tableName == t) =
            r :: rs.filter (fun x => x.tableName == t) := by
          simp [List.filter_cons, hrt]
        by_cases hrs : rs.filter (fun x => x.tableName == t) = []
        · rw [if_pos hrs, hfcons, hrs, if_neg (by simp), if_neg htacc,
            alistLookup_insert, hfresh_tn, if_pos ht.symm,
            refTableMeta_eq_groupFold (by rw [hfcons, hrs]) ht.symm, groupFold_nil]
        · rw [if_neg hrs, if_pos (by rw [hfresh_tn]; exact ht), hfcons,
            if_neg (by simp), if_neg htacc,
            refTableMeta_eq_groupFold hfcons ht.symm]
      · have hrt' : ¬ r.tableName = t := fun hh => ht hh.symm
        have hrt : (r.tableName == t) = false := beq_eq_false_iff_ne.mpr hrt'
        have hfcons : (r :: rs).filter (fun x => x.tableName == t) =
            rs.filter (fun x => x.tableName == t) := by
          simp [List.filter_cons, hrt]
        rw [hfcons]
        by_cases ht2 : t = acc.tableName
        · have hfrs : rs.filter (fun x => x.tableName == t) = [] := by
            rw [List.filter_eq_nil_iff]
            intro x hx
            have hxa : acc.tableName.toList < x.tableName.toList :=
              lt_of_lt_of_le hlt (rowLE_table (hhead x hx))
            have : ¬ x.tableName = t := by
              rw [ht2]
              exact fun hh => (ne_of_lt hxa) (congrArg String.toList hh.symm)
            simpa using this
          rw [if_pos hfrs, if_pos hfrs, alistLookup_insert, hfresh_tn,
            if_neg hrt']
        · by_cases hrs : rs.filter (fun x => x.tableName == t) = []
          · rw [if_pos hrs, if_pos hrs, alistLookup_insert, hfresh_tn,
              if_neg hrt']
          · rw [if_neg hrs, if_neg hrs, if_neg (by rw [hfresh_tn]; exact ht),
              if_neg ht2, refTableMeta_cons_ne hrt']

theorem columnMetadataInit_eq_ref :
    ∀ rows : List CatalogRow, List.Pairwise rowLE rows →
      (∀ r ∈ rows, r.tableName ≠ "") →
      ∀ t, alistLookup t (columnMetadataInit rows) = refTableMeta rows t := by
  intro rows hsorted hnames t
  cases rows with
  | nil => simp [columnMetadataInit, columnMetadataRun, refTableMeta, alistLookup]
  | cons r rs =>
    obtain ⟨hhead, htail⟩ := List.pairwise_cons.mp hsorted
    have hrne : r.tableName ≠ "" := hnames r (List.mem_cons_self r rs)
    have hnames' : ∀ x ∈ rs, x.tableName ≠ "" :=
      fun x hx => hnames x (List.mem_cons_of_mem r hx)
    have hstep : columnMetadataStep {} r = freshMeta r := by
      unfold columnMetadataStep
      rw [if_pos rfl]
      rfl
    have hrun : columnMetadataInit (r :: rs) =
        columnMetadataRun (freshMeta r)
          (alistInsert (freshMeta r).tableName (freshMeta r) []) rs := by
      unfold columnMetadataInit
      rw [show columnMetadataRun {} [] (r :: rs) =
        columnMetadataRun (columnMetadataStep {} r)
          (alistInsert (columnMetadataStep {} r).tableName
            (columnMetadataStep {} r) []) rs from rfl, hstep]
    have ihres : alistLookup (freshMeta r).tableName
        (alistInsert (freshMeta r).tableName (freshMeta r) []) = some (freshMeta r) := by
      rw [alistLookup_insert]
      simp
    have hmain := columnMetadataRun_spec rs (freshMeta r)
      (alistInsert (freshMeta r).tableName (freshMeta r) [])
      htail hnames' hrne
      (fun x hx => rowLE_table (hhead x hx)) ihres t
    rw [hrun, hmain]
    by_cases ht : t = r.tableName
    · have hrt : (r.tableName == t) = true := beq_iff_eq.mpr ht.symm
      have hfcons : (r :: rs).filter (fun x => x.tableName == t) =
          r :: rs.filter (fun x => x.tableName == t) := by
        simp [List.filter_cons, hrt]
      by_cases hrs : rs.filter (fun x => x.tableName == t) = []
      · rw [if_pos hrs, alistLookup_insert,
          show (freshMeta r).tableName = r.tableName from rfl, if_pos ht.symm,
          refTableMeta_eq_groupFold (by rw [hfcons, hrs]) ht.symm, groupFold_nil]
      · rw [if_neg hrs, if_pos (show t = (freshMeta r).tableName from ht),
          refTableMeta_eq_groupFold hfcons ht.symm]
    · have hrt' : ¬ r.tableName = t := fun hh => ht hh.symm
      have hrt : (r.tableName == t) = false := beq_eq_false_iff_ne.mpr hrt'
      have hfcons : (r :: rs).filter (fun x => x.tableName == t) =
          rs.filter (fun x => x.tableName == t) := by
        simp [List.filter_cons, hrt]
      by_cases hrs : rs.filter (fun x => x.tableName == t) = []
      · rw [if_pos hrs, alistLookup_insert,
          show (freshMeta r).tableName = r.tableName from rfl, if_neg hrt',
          refTableMeta_cons_ne hrt']
        unfold refTableMeta
        rw [hrs]
        rfl
      · rw [if_neg hrs, if_neg (show ¬ t = (freshMeta r).tableName from ht),
          refTableMeta_cons_ne hrt']

/-- C3 counterexample: the claim as stated fails on a `(table, column)`-sorted
cursor whose table name is the empty string: the scan's "accumulator is
empty" test is `tableName == ""`, so the second row of table `""` restarts
the accumulator instead of extending it, and the resulting entry disagrees
with the reference group-by (it ends up with only the last column). -/
theorem c3_empty_table_counterexample :
    List.Pairwise rowLE c3CexRows ∧
    ¬ alistLookup "" (columnMetadataInit c3CexRows) = refTableMeta c3CexRows "" := by
  refine ⟨by decide, by decide⟩

/-- C3 (amended): for every `(table, column)`-sorted catalog whose table
names are non-empty, the single-pass streaming group-by of
`columnMetadataInitialize` produces exactly the reference group-by of the
rows by table name (same entry, column for column, for every table); and on
the P5 rows (`users`: id partition key, name regular; then `orders`: id
partition key, user_id clustering) it produces exactly two entries with
`users.PartitionKeys() = ["id"]` and `orders.ClusteringKeys() = ["user_id"]`. -/
theorem c3_metadata_groupby :
    (∀ rows : List CatalogRow, List.Pairwise rowLE rows →
      (∀ r ∈ rows, r.tableName ≠ "") →
      ∀ t, alistLookup t (columnMetadataInit rows) = refTableMeta rows t) ∧
    (columnMetadataInit p5Rows).length = 2 ∧
    (alistLookup "users" (columnMetadataInit p5Rows)).map
      CassandraColumnMetadata.PartitionKeys = some ["id"] ∧
    (alistLookup "orders" (columnMetadataInit p5Rows)).map
      CassandraColumnMetadata.ClusteringKeys = some ["user_id"] := by
  refine ⟨columnMetadataInit_eq_ref, by decide, by decide, by decide⟩

/-- C3 witness: the general equivalence applied to the sorted four-row
catalog (orders before users). -/
theorem c3_metadata_groupby_witness :
    List.Pairwise rowLE c3SortedRows ∧
    (∀ r ∈ c3SortedRows, r.tableName ≠ "") ∧
    alistLookup "users" (columnMetadataInit c3SortedRows) =
      refTableMeta c3SortedRows "users" ∧
    alistLookup "orders" (columnMetadataInit c3SortedRows) =
      refTableMeta c3SortedRows "orders" := by
  refine ⟨by decide, by decide, ?_, ?_⟩
  · exact c3_metadata_groupby.1 c3SortedRows (by decide) (by decide) "users"
  · exact c3_metadata_groupby.1 c3SortedRows (by decide) (by decide) "orders"
